import Mathlib

/-!
Verification of the attendance-text parsing and payroll-derivation engine of
the pgmn-ops repository (src/utils/payrollCalculator.ts and the
SlackAttendanceTextParser module).

JavaScript numbers are modelled as rationals (ℚ); JavaScript strings as Lean
Strings or lists of characters; JS `Map` objects as association lists that
preserve insertion order (with `set` replacing in place, as `Map.set` does);
JS `Date` values as rational milliseconds since the epoch, with the local
timezone taken to be UTC.  The regular expressions of the parser are compiled
by hand into scanning functions over `List Char`; each definition carries a
comment naming the pattern it implements.
-/

set_option maxRecDepth 4000

/-! ## Basic character and list helpers (JS string primitives) -/
/-- Whitespace class of JS `\s` / `String.trim` restricted to ASCII. -/
def isWsChar (c : Char) : Bool :=
  c == ' ' || c == '\t' || c == '\n' || c == '\r' || c == '\x0b' || c == '\x0c'

/-- JS `\w` word-character class: `[A-Za-z0-9_]`. -/
def isWordC (c : Char) : Bool := c.isAlphanum || c == '_'

/-- Left trim, JS `String.trimStart`. -/
def trimLeftL (l : List Char) : List Char := l.dropWhile isWsChar

/-- JS `String.trim`: drop whitespace on both ends. -/
def trimL (l : List Char) : List Char :=
  ((l.dropWhile isWsChar).reverse.dropWhile isWsChar).reverse

/-- JS `String.toLowerCase` (ASCII letters). -/
def lowerL (l : List Char) : List Char := l.map Char.toLower

/-- JS `haystack.includes(needle)`: substring test. -/
def jsIncludes (hay needle : List Char) : Bool := decide (needle <:+: hay)

/-- JS `Math.round`: round half toward positive infinity. -/
def mathRound (x : ℚ) : ℤ := ⌊x + 1/2⌋

/-! ## Data model (src/types/index.ts)

`TimeTok` stands for a clock-time string of the shape matched by the parser's
time pattern `\d{1,2}:\d{2}\s*(AM|PM)`; the string fields `start_time` and
`default_start_time` of `EmployeeWithSettings` / `AttendanceSettings` are
modelled pre-parsed into this shape (the embedding considers well-formed time
settings).  `Employee` carries the optional `EmployeeWithSettings` override
fields directly, mirroring the `employee as EmployeeWithSettings` cast. -/
structure TimeTok where
  hh : ℕ
  mm : ℕ
  pm : Bool
deriving DecidableEq, Repr

structure Employee where
  id : String
  slack_user_id : String
  name : List Char
  hourly_rate : ℚ
  active : Bool
  start_time : Option TimeTok
  grace_period_minutes : Option ℚ
deriving DecidableEq, Repr

structure SlackMessage where
  user : String
  text : String
  /-- `parseFloat(message.ts)`: seconds since epoch, fractional. -/
  ts : ℚ
  date : String
deriving DecidableEq, Repr

structure AttendanceLog where
  employee_id : String
  date : String
  check_in : Option ℚ
  check_out : Option ℚ
  is_late : Bool
  is_offline : Bool
  hours_worked : ℚ
deriving DecidableEq, Repr

structure PayrollRules where
  standard_work_hours : ℚ
  overtime_multiplier : ℚ
  late_grace_period_minutes : ℚ
  late_deduction_amount : ℚ
  offline_deduction_amount : ℚ
deriving DecidableEq, Repr

structure PayrollSummary where
  employee : Employee
  total_hours : ℚ
  regular_hours : ℚ
  overtime_hours : ℚ
  late_days : ℕ
  offline_days : ℕ
  late_deductions : ℚ
  offline_deductions : ℚ
  gross_pay : ℚ
  net_pay : ℚ
deriving DecidableEq, Repr

def DEFAULT_PAYROLL_RULES : PayrollRules :=
  { standard_work_hours := 8
    overtime_multiplier := 3/2
    late_grace_period_minutes := 5
    late_deduction_amount := 10
    offline_deduction_amount := 50 }

/-! ## Structured pipeline: parseSlackMessages (payrollCalculator.ts 11-67) -/
/-- `new Map(employees.map(emp => [emp.slack_user_id, emp])).get(u)`:
on duplicate keys the later entry overwrites, so lookup finds the last. -/
def lookupEmployee (employees : List Employee) (u : String) : Option Employee :=
  employees.reverse.find? (fun e => e.slack_user_id == u)

/-- The fresh per-(employee, date) record created on first sight of a key. -/
def initLog (empId date : String) : AttendanceLog :=
  { employee_id := empId, date, check_in := none, check_out := none
    is_late := false, is_offline := false, hours_worked := 0 }

/-- Replace the value stored at key `k` (keys are unique in a JS `Map`). -/
def assocUpd (m : List (String × AttendanceLog)) (k : String)
    (f : AttendanceLog → AttendanceLog) : List (String × AttendanceLog) :=
  m.map (fun p => if p.1 == k then (p.1, f p.2) else p)

/-- One iteration of the message-grouping `forEach` of `parseSlackMessages`. -/
def parseStep (employees : List Employee) (acc : List (String × AttendanceLog))
    (m : SlackMessage) : List (String × AttendanceLog) :=
  match lookupEmployee employees m.user with
  | none => acc
  | some emp =>
    let key := emp.id ++ "-" ++ m.date
    let timestamp : ℚ := m.ts * 1000
    let acc1 := if acc.any (fun p => p.1 == key) then acc
                else acc ++ [(key, initLog emp.id m.date)]
    if jsIncludes m.text.toList ":in:".toList then
      assocUpd acc1 key (fun lg => { lg with check_in := some timestamp })
    else if jsIncludes m.text.toList ":out:".toList then
      assocUpd acc1 key (fun lg => { lg with check_out := some timestamp })
    else acc1

/-- `startOfDay.setHours(9,0,0,0)` on a Date `t` (ms since epoch, UTC). -/
def dayStart9 (t : ℚ) : ℚ := (⌊t / 86400000⌋ : ℤ) * 86400000 + 9 * 3600000

/-- The per-log post-processing of `parseSlackMessages` (lines 46-66). -/
def finalizeLog (lg : AttendanceLog) : AttendanceLog :=
  match lg.check_in, lg.check_out with
  | some cin, some cout =>
    let hoursWorked := (cout - cin) / 3600000
    let isLate : Bool :=
      if dayStart9 cin + DEFAULT_PAYROLL_RULES.late_grace_period_minutes * 60000 < cin
      then true else false
    { lg with is_late := isLate, hours_worked := max 0 hoursWorked }
  | _, _ =>
    { lg with is_offline := lg.check_in.isNone && lg.check_out.isNone, hours_worked := 0 }

/-- `parseSlackMessages(messages, employees)`. -/
def parseSlackMessages (messages : List SlackMessage) (employees : List Employee) :
    List AttendanceLog :=
  ((messages.foldl (parseStep employees) []).map (fun p => finalizeLog p.2))

/-! ## Structured pipeline: calculatePayrollSummary (payrollCalculator.ts 69-129) -/
/-- The all-zero summary a roster employee starts from (lines 77-90). -/
def zeroSummary (e : Employee) : PayrollSummary :=
  { employee := e, total_hours := 0, regular_hours := 0, overtime_hours := 0
    late_days := 0, offline_days := 0, late_deductions := 0, offline_deductions := 0
    gross_pay := 0, net_pay := 0 }

/-- JS `Map.set`: replace in place if the key exists, else append. -/
def assocSet (m : List (String × PayrollSummary)) (k : String) (v : PayrollSummary) :
    List (String × PayrollSummary) :=
  if m.any (fun p => p.1 == k) then m.map (fun p => if p.1 == k then (p.1, v) else p)
  else m ++ [(k, v)]

/-- Accumulate one attendance log into an employee summary (lines 97-107). -/
def applyLog (rules : PayrollRules) (s : PayrollSummary) (lg : AttendanceLog) :
    PayrollSummary :=
  { s with
    total_hours := s.total_hours + lg.hours_worked
    late_days := s.late_days + (if lg.is_late then 1 else 0)
    late_deductions :=
      s.late_deductions + (if lg.is_late then rules.late_deduction_amount else 0)
    offline_days := s.offline_days + (if lg.is_offline then 1 else 0)
    offline_deductions :=
      s.offline_deductions + (if lg.is_offline then rules.offline_deduction_amount else 0) }

/-- `summaryMap.get(log.employee_id)` then mutate; a missing key is a no-op.
Keys are unique after initialization, so updating every matching entry is
the same as updating the one entry the JS `Map` holds. -/
def applyLogToMap (rules : PayrollRules) (m : List (String × PayrollSummary))
    (lg : AttendanceLog) : List (String × PayrollSummary) :=
  m.map (fun p => if p.1 == lg.employee_id then (p.1, applyLog rules p.2 lg) else p)

/-- The pay calculation of lines 111-128 (regular/overtime split, gross, net). -/
def finalizeSummary (rules : PayrollRules) (s : PayrollSummary) : PayrollSummary :=
  let regularHours := min s.total_hours (rules.standard_work_hours * 5)
  let overtimeHours := max 0 (s.total_hours - regularHours)
  let regularPay := regularHours * s.employee.hourly_rate
  let overtimePay := overtimeHours * s.employee.hourly_rate * rules.overtime_multiplier
  let grossPay := regularPay + overtimePay
  let totalDeductions := s.late_deductions + s.offline_deductions
  let netPay := max 0 (grossPay - totalDeductions)
  { s with regular_hours := regularHours, overtime_hours := overtimeHours
           gross_pay := grossPay, net_pay := netPay }

/-- `calculatePayrollSummary(attendanceLogs, employees, rules)`. -/
def calculatePayrollSummary (attendanceLogs : List AttendanceLog)
    (employees : List Employee) (rules : PayrollRules) : List PayrollSummary :=
  let init := employees.foldl (fun m e => assocSet m e.id (zeroSummary e)) []
  let processed := attendanceLogs.foldl (applyLogToMap rules) init
  processed.map (fun p => finalizeSummary rules p.2)

def wEmployee : Employee :=
  { id := "emp_001", slack_user_id := "U12345678", name := "John Smith".toList
    hourly_rate := 25, active := true, start_time := none, grace_period_minutes := none }

def wStranger : SlackMessage :=
  { user := "UNOBODY99", text := ":in:", ts := 32400, date := "2024-01-01" }

def c6dupEmployee : Employee :=
  { id := "emp_001", slack_user_id := "U87654321", name := "Jane Roe".toList
    hourly_rate := 30, active := true, start_time := none, grace_period_minutes := none }

def c6rules : PayrollRules :=
  { standard_work_hours := -1, overtime_multiplier := 3/2
    late_grace_period_minutes := 5, late_deduction_amount := 10
    offline_deduction_amount := 50 }

def c1john : Employee :=
  { id := "1", slack_user_id := "U1", name := "John Smith".toList
    hourly_rate := 25, active := true, start_time := none, grace_period_minutes := none }

def c1jane : Employee :=
  { id := "2", slack_user_id := "U2", name := "Jane Doe".toList
    hourly_rate := 30, active := true, start_time := none, grace_period_minutes := none }

def c1msgs : List SlackMessage :=
  [ { user := "U1", text := ":in:", ts := 32400, date := "2024-01-01" }
  , { user := "U1", text := ":out:", ts := 61200, date := "2024-01-01" }
  , { user := "U2", text := ":in:", ts := 36000, date := "2024-01-01" }
  , { user := "U2", text := ":out:", ts := 68400, date := "2024-01-01" } ]

/-! ## Free-text pipeline: data model (SlackAttendanceTextParser) -/
inductive AttendanceStatus where
  | check_in
  | approved_out
  | work_from_home
  | eta_delayed
  | no_show
  | unknown
deriving DecidableEq, Repr

structure AttendanceSettings where
  default_start_time : TimeTok
  timezone : String
  grace_period_minutes : ℚ
  late_penalty_per_minute : ℚ
deriving DecidableEq, Repr

/-- The parser's `defaultSettings` ("10:00 AM", Asia/Manila, 5, 0). -/
def defaultSettings : AttendanceSettings :=
  { default_start_time := { hh := 10, mm := 0, pm := false }
    timezone := "Asia/Manila", grace_period_minutes := 5
    late_penalty_per_minute := 0 }

/-- `Partial<AttendanceSettings>` as passed to the constructor. -/
structure PartialSettings where
  default_start_time : Option TimeTok
  timezone : Option String
  grace_period_minutes : Option ℚ
  late_penalty_per_minute : Option ℚ
deriving DecidableEq, Repr

/-- `{ ...this.defaultSettings, ...settings }`. -/
def mergeSettings (p : PartialSettings) : AttendanceSettings :=
  { default_start_time := p.default_start_time.getD defaultSettings.default_start_time
    timezone := p.timezone.getD defaultSettings.timezone
    grace_period_minutes := p.grace_period_minutes.getD defaultSettings.grace_period_minutes
    late_penalty_per_minute :=
      p.late_penalty_per_minute.getD defaultSettings.late_penalty_per_minute }

structure ParsedAttendanceEntry where
  raw_name : String
  employee_id : Option String
  check_in_time : Option TimeTok
  status : AttendanceStatus
  is_late : Bool
  minutes_late : ℤ
  confidence_score : ℚ
  day_rate_applicable : Bool
  deduction_amount : ℚ
  deduction_reason : Option String
  eta_time : Option (ℕ × ℕ)
  approval_code : Option (List Char)
deriving DecidableEq, Repr

structure ParseSummary where
  total_entries : ℕ
  check_ins : ℕ
  approved_absences : ℕ
  work_from_home : ℕ
  late_arrivals : ℕ
  no_shows : ℕ
  unmatched : ℕ
  total_deductions : ℚ
deriving DecidableEq, Repr

structure AttendanceParseResult where
  date : String
  entries : List ParsedAttendanceEntry
  unmatched_names : List String
  parsing_errors : List String
  no_show_employees : List String
  summary : ParseSummary
deriving DecidableEq, Repr

/-! ## Name matcher (payrollCalculator.ts 304-363) -/
/-- One row step of the Levenshtein dynamic program: `levStep f x ys` is the
distance between `x :: xs` and `ys` given `f = distance of xs against
anything`; the three-way `min` is the recurrence of
`calculateLevenshteinDistance` (deletion, insertion, substitution each
cost 1, the matrix entries satisfying exactly this recurrence). -/
def levStep (f : List Char → ℕ) (x : Char) : List Char → ℕ
  | [] => f [] + 1
  | y :: ys =>
    min (min (f (y :: ys) + 1) (levStep f x ys + 1)) (f ys + if x = y then 0 else 1)

/-- `calculateLevenshteinDistance(str1, str2)`, on character lists. -/
def calculateLevenshteinDistance : List Char → List Char → ℕ
  | [], ys => ys.length
  | x :: xs, ys => levStep (calculateLevenshteinDistance xs) x ys

/-- Case-insensitive literal-prefix matcher: returns the remainder on
success.  Used to compile the literal fragments of the parser's regexes. -/
def ciPre : List Char → List Char → Option (List Char)
  | [], l => some l
  | _, [] => none
  | p :: ps, c :: cs => if p.toLower == c.toLower then ciPre ps cs else none

/-- Suffix-alternation step of `/\s+(jr|sr|iii?|iv)\b/g`: does alternative
`a` match at `l` with a word boundary after it? -/
def altOk (a l : List Char) : Bool :=
  decide (a <+: l) &&
    (match l.drop a.length with
     | [] => true
     | c :: _ => !(isWordC c))

/-- The alternation `(jr|sr|iii?|iv)\b`, in the regex's preference order
(greedy `iii?` tries `iii` before `ii`); returns the matched length. -/
def suffixAltAt (l : List Char) : Option ℕ :=
  if altOk ['j', 'r'] l then some 2
  else if altOk ['s', 'r'] l then some 2
  else if altOk ['i', 'i', 'i'] l then some 3
  else if altOk ['i', 'i'] l then some 2
  else if altOk ['i', 'v'] l then some 2
  else none

/-- Fuel-indexed scan implementing `replace(/\s+(jr|sr|iii?|iv)\b/g, '')`:
at each whitespace position try (maximal whitespace run)(alternative)(word
boundary); on a match delete it and continue after the match, else keep the
character.  The fuel, initialized to the length, dominates the scan. -/
def stripSuffGo : ℕ → List Char → List Char
  | 0, l => l
  | _, [] => []
  | fuel + 1, c :: rest =>
    if isWsChar c then
      match suffixAltAt (rest.dropWhile isWsChar) with
      | some k => stripSuffGo fuel ((rest.dropWhile isWsChar).drop k)
      | none => c :: stripSuffGo fuel rest
    else c :: stripSuffGo fuel rest

/-- `name.replace(/\s+(jr|sr|iii?|iv)\b/g, '').trim()`. -/
def cleanName (l : List Char) : List Char := trimL (stripSuffGo l.length l)

/-- `matchEmployeeName(rawName)`: exact case-insensitive match first, then
the fuzzy pass (cleaned substring either way, or edit distance at most 2). -/
def matchEmployeeName (rawName : List Char) (employees : List Employee) :
    Option Employee :=
  match employees.find? (fun emp => lowerL emp.name == lowerL rawName) with
  | some e => some e
  | none =>
    employees.find? (fun emp =>
      let cleanEmpName := cleanName (lowerL emp.name)
      let cleanRawName := cleanName (lowerL rawName)
      jsIncludes cleanEmpName cleanRawName || jsIncludes cleanRawName cleanEmpName
        || decide (calculateLevenshteinDistance cleanEmpName cleanRawName ≤ 2))

/-- `calculateNameMatchScore(rawName, employeeName)`. -/
def calculateNameMatchScore (rawName employeeName : List Char) : ℚ :=
  let raw := lowerL rawName
  let emp := lowerL employeeName
  if raw = emp then 1
  else
    let distance := calculateLevenshteinDistance raw emp
    let maxLength := max raw.length emp.length
    max 0 (1 - (distance : ℚ) / (maxLength : ℚ))

/-! ## Time and status pattern scanners -/
/-- Numeric value of a decimal digit character. -/
def digitVal (c : Char) : ℕ := c.toNat - 48

/-- After `\d{1,2}:\d{2}`, the regex's `\s*(AM|PM)` part (case-insensitive).
A maximal whitespace run is consumed (the alternatives do not start with
whitespace, so no backtracking arises). -/
def merTail (hh mm : ℕ) (l : List Char) : Option TimeTok :=
  match l.dropWhile isWsChar with
  | p :: m :: _ =>
    if (p == 'A' || p == 'a' || p == 'P' || p == 'p') && (m == 'M' || m == 'm') then
      some { hh := hh, mm := mm, pm := (p == 'P' || p == 'p') }
    else none
  | _ => none

/-- Two-digit-hour attempt of `\d{1,2}:\d{2}\s*(AM|PM)` (greedy `\d{1,2}`). -/
def timeCore2 (l : List Char) : Option TimeTok :=
  match l with
  | a :: b :: c :: d :: e :: rest =>
    if a.isDigit && b.isDigit && (c == ':') && d.isDigit && e.isDigit then
      merTail (10 * digitVal a + digitVal b) (10 * digitVal d + digitVal e) rest
    else none
  | _ => none

/-- One-digit-hour attempt (the backtracked alternative of `\d{1,2}`). -/
def timeCore1 (l : List Char) : Option TimeTok :=
  match l with
  | a :: c :: d :: e :: rest =>
    if a.isDigit && (c == ':') && d.isDigit && e.isDigit then
      merTail (digitVal a) (10 * digitVal d + digitVal e) rest
    else none
  | _ => none

/-- One attempt of `\[?(\d{1,2}:\d{2}\s*(?:AM|PM))\]?` at a position: an
optional opening bracket, then the captured time. -/
def timeAt (l : List Char) : Option TimeTok :=
  match l with
  | '[' :: r => (timeCore2 r) <|> (timeCore1 r)
  | r => (timeCore2 r) <|> (timeCore1 r)

/-- `section.match(this.timePattern)`: leftmost match of the time pattern,
returned in parsed form (hour digits, minute digits, meridiem). -/
def findTimeTok : List Char → Option TimeTok
  | [] => none
  | c :: rest => (timeAt (c :: rest)) <|> findTimeTok rest

/-- Any-position combinator: does `p` hold at some suffix? -/
def anyTailB (p : List Char → Bool) : List Char → Bool
  | [] => p []
  | c :: rest => p (c :: rest) || anyTailB p rest

/-- `OUT\s*-\s*JSP\s*Approved` at a position (first approved_out alternative). -/
def approvedOutAt (l : List Char) : Bool :=
  match ciPre "out".toList l with
  | none => false
  | some r1 =>
    match r1.dropWhile isWsChar with
    | '-' :: r2 =>
      match ciPre "jsp".toList (r2.dropWhile isWsChar) with
      | none => false
      | some r3 => (ciPre "approved".toList (r3.dropWhile isWsChar)).isSome
    | _ => false

/-- `Approved\s*Leave` at a position. -/
def approvedLeaveAt (l : List Char) : Bool :=
  match ciPre "approved".toList l with
  | none => false
  | some r => (ciPre "leave".toList (r.dropWhile isWsChar)).isSome

/-- `Sick\s*Leave\s*-\s*Approved` at a position. -/
def sickLeaveAt (l : List Char) : Bool :=
  match ciPre "sick".toList l with
  | none => false
  | some r1 =>
    match ciPre "leave".toList (r1.dropWhile isWsChar) with
    | none => false
    | some r2 =>
      match r2.dropWhile isWsChar with
      | '-' :: r3 => (ciPre "approved".toList (r3.dropWhile isWsChar)).isSome
      | _ => false

/-- `statusPatterns.approved_out.test(section)`. -/
def testApprovedOut (s : List Char) : Bool :=
  anyTailB (fun l => approvedOutAt l || approvedLeaveAt l || sickLeaveAt l) s

/-- `Work\s*from\s*Home` at a position. -/
def workFromHomeAt (l : List Char) : Bool :=
  match ciPre "work".toList l with
  | none => false
  | some r1 =>
    match ciPre "from".toList (r1.dropWhile isWsChar) with
    | none => false
    | some r2 => (ciPre "home".toList (r2.dropWhile isWsChar)).isSome

/-- `statusPatterns.work_from_home.test(section)`: `WFH|Work\s*from\s*Home|Remote`. -/
def testWFH (s : List Char) : Bool :=
  anyTailB (fun l =>
    (ciPre "wfh".toList l).isSome || workFromHomeAt l || (ciPre "remote".toList l).isSome) s

/-- `\d{1,2}:\d{2}` with greedy two-digit preference (the ETA capture). -/
def hmAt (l : List Char) : Option (ℕ × ℕ) :=
  (match l with
   | a :: b :: c :: d :: e :: _ =>
     if a.isDigit && b.isDigit && (c == ':') && d.isDigit && e.isDigit then
       some (10 * digitVal a + digitVal b, 10 * digitVal d + digitVal e)
     else none
   | _ => none)
  <|>
  (match l with
   | a :: c :: d :: e :: _ =>
     if a.isDigit && (c == ':') && d.isDigit && e.isDigit then
       some (digitVal a, 10 * digitVal d + digitVal e)
     else none
   | _ => none)

/-- `ETA\s*(\d{1,2}:\d{2})` at a position, returning the captured time. -/
def etaAt (l : List Char) : Option (ℕ × ℕ) :=
  match ciPre "eta".toList l with
  | none => none
  | some r => hmAt (r.dropWhile isWsChar)

/-- Leftmost match of the ETA pattern: used both by the status test and by
`extractETATime`. -/
def etaScan : List Char → Option (ℕ × ℕ)
  | [] => none
  | c :: rest => (etaAt (c :: rest)) <|> etaScan rest

/-- Word-boundary test against the previous character. -/
def boundaryL (prev : Option Char) : Bool :=
  match prev with
  | none => true
  | some c => !(isWordC c)

/-- `\bIN\b` (case-insensitive) starting at this position, given the
previous character. -/
def inTokenAt (prev : Option Char) (l : List Char) : Bool :=
  match l with
  | a :: b :: rest =>
    boundaryL prev && (a == 'i' || a == 'I') && (b == 'n' || b == 'N')
      && (match rest with
          | [] => true
          | c :: _ => !(isWordC c))
  | _ => false

/-- Scan for `\bIN\b|\bin\b` anywhere, tracking the previous character. -/
def inScan (prev : Option Char) : List Char → Bool
  | [] => false
  | c :: rest => inTokenAt prev (c :: rest) || inScan (some c) rest

/-- `statusPatterns.check_in.test(section)`. -/
def testCheckIn (s : List Char) : Bool := inScan none s

/-- `determineAttendanceStatus(section)`: fixed priority order. -/
def determineAttendanceStatus (sec : List Char) : AttendanceStatus :=
  if testApprovedOut sec then AttendanceStatus.approved_out
  else if testWFH sec then AttendanceStatus.work_from_home
  else if (etaScan sec).isSome then AttendanceStatus.eta_delayed
  else if testCheckIn sec then AttendanceStatus.check_in
  else AttendanceStatus.unknown

/-! ## Lateness, deductions, entry parsing -/
/-- `parseTime` on a well-formed `H:MM AM/PM` token, as minutes after
midnight: the two meridiem adjustments of the source, then `h*60+m`. -/
def parseTimeMin (t : TimeTok) : ℕ :=
  let hour24 := if t.pm && t.hh != 12 then t.hh + 12
                else if !t.pm && t.hh == 12 then 0
                else t.hh
  hour24 * 60 + t.mm

/-- `employeeWithSettings?.start_time || this.defaultSettings.default_start_time`
(an absent override is `none`; the source's falsy empty string is not a
well-formed time and is likewise modelled as `none`). -/
def effStartTok (emp : Option Employee) (st : AttendanceSettings) : TimeTok :=
  match emp with
  | some e => e.start_time.getD st.default_start_time
  | none => st.default_start_time

/-- `employeeWithSettings?.grace_period_minutes || this.defaultSettings.grace_period_minutes`;
a present override of `0` is falsy in JS and falls back to the default. -/
def effGraceQ (emp : Option Employee) (st : AttendanceSettings) : ℚ :=
  match emp with
  | some e =>
    match e.grace_period_minutes with
    | some g => if g = 0 then st.grace_period_minutes else g
    | none => st.grace_period_minutes
  | none => st.grace_period_minutes

/-- `calculateLateness(checkInTime, employee, status)`: returns the pair
(isLate, rounded minutes late). -/
def calculateLateness (checkInTime : Option TimeTok) (emp : Option Employee)
    (status : AttendanceStatus) (st : AttendanceSettings) : Bool × ℤ :=
  match checkInTime with
  | none => (false, 0)
  | some cin =>
    if status = AttendanceStatus.approved_out ∨ status = AttendanceStatus.work_from_home
    then (false, 0)
    else
      let diffMinutes : ℤ :=
        (parseTimeMin cin : ℤ) - (parseTimeMin (effStartTok emp st) : ℤ)
      let minutesLate : ℚ := max 0 ((diffMinutes : ℚ) - effGraceQ emp st)
      ((if 0 < minutesLate then true else false), mathRound minutesLate)

/-- `isDayRateApplicable(status)`: everything but `no_show`. -/
def isDayRateApplicable (status : AttendanceStatus) : Bool :=
  decide (status ≠ AttendanceStatus.no_show)

/-- `calculateDeductions(status, minutesLate)`. -/
def calculateDeductions (status : AttendanceStatus) (minutesLate : ℤ)
    (st : AttendanceSettings) : ℚ :=
  if status = AttendanceStatus.no_show then 1
  else if status = AttendanceStatus.approved_out
      ∨ status = AttendanceStatus.work_from_home then 0
  else (minutesLate : ℚ) * st.late_penalty_per_minute

/-! ## Name extraction (`namePattern`) -/
/-- Characters excluded by the name pattern's class `[^[\d\n]`. -/
def badNameChar (c : Char) : Bool := (c == '[') || c.isDigit || (c == '\n')

/-- The name pattern's lookahead `(?=\s*\[?\d|\s*$)` on a single line. -/
def lookNameOk (l : List Char) : Bool :=
  match l.dropWhile isWsChar with
  | [] => true
  | '[' :: d :: _ => d.isDigit
  | c :: _ => c.isDigit

/-- Lazy expansion of `([^[\d\n]+?)`: grow the capture one character at a
time, testing the lookahead before each extension. -/
def nameGo (acc : List Char) : List Char → Option (List Char)
  | [] => if lookNameOk [] then some acc.reverse else none
  | c :: rest =>
    if lookNameOk (c :: rest) then some acc.reverse
    else if badNameChar c then none
    else nameGo (c :: acc) rest

/-- `line.match(/^([^[\d\n]+?)(?=\s*\[?\d|\s*$)/m)` applied to a single
(already newline-free) line: anchored at position 0. -/
def nameMatchAt (line : List Char) : Option (List Char) :=
  match line with
  | [] => none
  | c :: rest => if badNameChar c then none else nameGo [c] rest

/-- `nameMatch ? nameMatch[1].trim() : lines[0].trim()`. -/
def nameExtract (line : List Char) : List Char :=
  match nameMatchAt line with
  | some cap => trimL cap
  | none => trimL line

/-! ## Approval code and date extraction -/
/-- `\s*Approved` immediately after a candidate letter prefix. -/
def altCapLetters (l : List Char) : ℕ → Option (List Char)
  | 0 => none
  | k + 1 =>
    let rest := l.drop (k + 1)
    match ciPre "approved".toList (rest.dropWhile isWsChar) with
    | some _ => some (l.take (k + 1 + (rest.takeWhile isWsChar).length + 8))
    | none => altCapLetters l k

/-- The capture group `(JSP\s*Approved|[A-Z]+\s*Approved)` at a position
(`[A-Z]+` is greedy and backtracks, matching any letters under the `i`
flag); returns the captured characters. -/
def altApprovedAt (l : List Char) : Option (List Char) :=
  (match ciPre "jsp".toList l with
   | some r1 =>
     match ciPre "approved".toList (r1.dropWhile isWsChar) with
     | some _ => some (l.take (3 + (r1.takeWhile isWsChar).length + 8))
     | none => none
   | none => none)
  <|> altCapLetters l ((l.takeWhile Char.isAlpha).length)

/-- `OUT\s*-\s*(...)` at a position. -/
def outDashAt (l : List Char) : Option (List Char) :=
  match ciPre "out".toList l with
  | none => none
  | some r1 =>
    match r1.dropWhile isWsChar with
    | '-' :: r2 => altApprovedAt (r2.dropWhile isWsChar)
    | _ => none

/-- `extractApprovalCode(section)`: leftmost match's capture. -/
def extractApprovalCode : List Char → Option (List Char)
  | [] => none
  | c :: rest => (outDashAt (c :: rest)) <|> extractApprovalCode rest

/-- `\d{1,2}\/`: two digits preferred, then one (returns digits and the
remainder after the slash). -/
def slashNum (l : List Char) : Option (List Char × List Char) :=
  match l with
  | a :: b :: c :: rest =>
    if a.isDigit && b.isDigit && (c == '/') then some ([a, b], rest)
    else if a.isDigit && (b == '/') then some ([a], c :: rest)
    else none
  | a :: b :: rest =>
    if a.isDigit && (b == '/') then some ([a], rest)
    else none
  | _ => none

/-- Greedy `\d{2,4}`. -/
def yearDigits (l : List Char) : Option (List Char) :=
  let run := l.takeWhile Char.isDigit
  if 4 ≤ run.length then some (run.take 4)
  else if 2 ≤ run.length then some run
  else none

/-- `start\s+date\s+(\d{1,2}\/\d{1,2}\/\d{2,4})` at a position. -/
def dateAt (l : List Char) : Option (List Char × List Char × List Char) :=
  match ciPre "start".toList l with
  | none => none
  | some r1 =>
    if (r1.takeWhile isWsChar).length = 0 then none
    else
      match ciPre "date".toList (r1.dropWhile isWsChar) with
      | none => none
      | some r2 =>
        if (r2.takeWhile isWsChar).length = 0 then none
        else
          match slashNum (r2.dropWhile isWsChar) with
          | none => none
          | some (m, r3) =>
            match slashNum r3 with
            | none => none
            | some (d, r4) =>
              match yearDigits r4 with
              | none => none
              | some y => some (m, d, y)

/-- Leftmost match of the date pattern. -/
def dateScan : List Char → Option (List Char × List Char × List Char)
  | [] => none
  | c :: rest => (dateAt (c :: rest)) <|> dateScan rest

/-- `padStart(2, '0')` on a one-or-two digit string. -/
def pad2 (p : List Char) : List Char := if p.length = 1 then '0' :: p else p

/-- `extractDate(text)`: `MM/DD/YY[YY]` to `YYYY-MM-DD`, two-digit years in
the 2000s. -/
def extractDate (text : List Char) : Option String :=
  match dateScan text with
  | none => none
  | some (m, d, y) =>
    let y4 := if y.length = 2 then '2' :: '0' :: y else y
    some (String.mk (y4 ++ '-' :: (pad2 m ++ '-' :: pad2 d)))

/-! ## Section splitting and the full free-text parse -/
/-- `start\s+date[^\n]*\n` at a position: returns the matched length. -/
def removeHeaderAt (l : List Char) : Option ℕ :=
  match ciPre "start".toList l with
  | none => none
  | some r1 =>
    let ws1 := (r1.takeWhile isWsChar).length
    if ws1 = 0 then none
    else
      match ciPre "date".toList (r1.dropWhile isWsChar) with
      | none => none
      | some r2 =>
        let lineLen := (r2.takeWhile (fun c => c != '\n')).length
        match r2.drop lineLen with
        | '\n' :: _ => some (5 + ws1 + 4 + lineLen + 1)
        | _ => none

/-- `text.replace(/start\s+date[^\n]*\n/i, '')`: remove the first match. -/
def removeHeader : List Char → List Char
  | [] => []
  | c :: rest =>
    match removeHeaderAt (c :: rest) with
    | some k => (c :: rest).drop k
    | none => c :: removeHeader rest

/-- One alternative of the split lookahead after `\w+.*`: a time-ish token
`\[?\d{1,2}:\d{2}` (whose presence reduces to a `d:dd` occurrence) or one of
the literals `IN`/`OUT`/`WFH`/`ETA`, case-insensitively. -/
def lookTok (s : List Char) : Bool :=
  (match s with
   | a :: b :: c :: d :: _ => a.isDigit && (b == ':') && c.isDigit && d.isDigit
   | _ => false)
  || (ciPre "in".toList s).isSome
  || (ciPre "out".toList s).isSome
  || (ciPre "wfh".toList s).isSome
  || (ciPre "eta".toList s).isSome

/-- The split lookahead `(?=\w+.*(?:\[?\d{1,2}:\d{2}|IN|OUT|WFH|ETA))` on
the text following a newline: the next line starts with a word character
and contains one of the tokens at some position past its first character
(`\w+` needs at least one character and `.`, `\w`, and the token characters
cannot cross the newline). -/
def lookaheadOk (r : List Char) : Bool :=
  match r.takeWhile (fun c => c != '\n') with
  | [] => false
  | c0 :: restLine => isWordC c0 && anyTailB lookTok restLine

/-- `split(/\n(?=...)/i)`: cut at newlines whose lookahead holds, dropping
the newline, keeping other newlines inside sections. -/
def splitGo (cur : List Char) : List Char → List (List Char)
  | [] => [cur.reverse]
  | c :: rest =>
    if c == '\n' then
      if lookaheadOk rest then cur.reverse :: splitGo [] rest
      else splitGo (c :: cur) rest
    else splitGo (c :: cur) rest

/-- `splitIntoEmployeeSections(text)`. -/
def splitIntoEmployeeSections (text : List Char) : List (List Char) :=
  ((splitGo [] (removeHeader text)).filter (fun s => !(trimL s).isEmpty)).map trimL

/-- `parseEmployeeSection(section)`. -/
def parseEmployeeSection (sec : List Char) (employees : List Employee)
    (st : AttendanceSettings) : Option ParsedAttendanceEntry :=
  if trimL sec = [] then none
  else
    let lines := ((sec.splitOn '\n').map trimL).filter (fun l => !l.isEmpty)
    match lines with
    | [] => none
    | l0 :: _ =>
      let rawName := nameExtract l0
      let checkInTime := findTimeTok sec
      let status := determineAttendanceStatus sec
      let employee := matchEmployeeName rawName employees
      let confidenceScore :=
        match employee with
        | some e => calculateNameMatchScore rawName e.name
        | none => 0
      let li := calculateLateness checkInTime employee status st
      some
        { raw_name := String.mk rawName
          employee_id := employee.map (fun e => e.id)
          check_in_time := checkInTime
          status := status
          is_late := li.1
          minutes_late := li.2
          confidence_score := confidenceScore
          day_rate_applicable := isDayRateApplicable status
          deduction_amount := calculateDeductions status li.2 st
          deduction_reason :=
            if li.1 then some ("Late by " ++ toString li.2 ++ " minutes") else none
          eta_time := etaScan sec
          approval_code := extractApprovalCode sec }

/-- `identifyNoShowEmployees(entries)`: active roster employees whose id is
not among the matched entries. -/
def identifyNoShowEmployees (entries : List ParsedAttendanceEntry)
    (employees : List Employee) : List String :=
  let presentIds := entries.filterMap (fun e => e.employee_id)
  ((employees.filter (fun e => e.active)).filter
      (fun e => !(presentIds.contains e.id))).map (fun e => String.mk e.name)

/-- `validateEntries(entries)`. -/
def validateEntries (entries : List ParsedAttendanceEntry) : List String :=
  entries.foldl
    (fun errors en =>
      (errors ++
        (if en.employee_id.isNone && en.raw_name != "" then
          ["Unknown employee: " ++ en.raw_name] else [])) ++
        (if en.status = AttendanceStatus.unknown then
          ["Could not determine status for: " ++ en.raw_name] else []))
    []

/-- `generateSummary(entries, noShowEmployees)`. -/
def generateSummary (entries : List ParsedAttendanceEntry)
    (noShowEmployees : List String) : ParseSummary :=
  { total_entries := entries.length
    check_ins :=
      (entries.filter (fun e => decide (e.status = AttendanceStatus.check_in))).length
    approved_absences :=
      (entries.filter (fun e => decide (e.status = AttendanceStatus.approved_out))).length
    work_from_home :=
      (entries.filter (fun e => decide (e.status = AttendanceStatus.work_from_home))).length
    late_arrivals := (entries.filter (fun e => e.is_late)).length
    no_shows := noShowEmployees.length
    unmatched := (entries.filter (fun e => e.employee_id.isNone)).length
    total_deductions := entries.foldl (fun s e => s + e.deduction_amount) 0 }

/-- `parseSlackText(text)`: the full free-text pipeline.  `todayStr` stands
for the ambient current date used when no `start date` header is found. -/
def parseSlackText (text : String) (employees : List Employee)
    (settings : PartialSettings) (todayStr : String) : AttendanceParseResult :=
  let st := mergeSettings settings
  let tl := text.toList
  let date := extractDate tl
  let sections := splitIntoEmployeeSections tl
  let entries := sections.filterMap (fun s => parseEmployeeSection s employees st)
  let noShowEmployees := identifyNoShowEmployees entries employees
  { date := date.getD todayStr
    entries := entries
    unmatched_names :=
      (entries.filter (fun e => e.employee_id.isNone)).map (fun e => e.raw_name)
    parsing_errors := validateEntries entries
    no_show_employees := noShowEmployees
    summary := generateSummary entries noShowEmployees }

def wBob : Employee :=
  { id := "emp_007", slack_user_id := "U00000007", name := "Bob".toList
    hourly_rate := 15, active := true, start_time := none, grace_period_minutes := none }

def c3emp : Employee :=
  { id := "emp_008", slack_user_id := "U00000008", name := "x iii".toList
    hourly_rate := 15, active := true, start_time := none, grace_period_minutes := none }

def noSettings : PartialSettings := ⟨none, none, none, none⟩

def w5text : String := "john [10:06 AM] IN"

def w5entryE : ParsedAttendanceEntry :=
  { raw_name := "john", employee_id := none
    check_in_time := some { hh := 10, mm := 6, pm := false }
    status := AttendanceStatus.check_in, is_late := true, minutes_late := 1
    confidence_score := 0, day_rate_applicable := true, deduction_amount := 0
    deduction_reason := some "Late by 1 minutes", eta_time := none
    approval_code := none }

def ce5settings : PartialSettings := ⟨none, none, some (3/5), none⟩

def ce5text : String := "john [10:01 AM] IN"

def ce5entryE : ParsedAttendanceEntry :=
  { raw_name := "john", employee_id := none
    check_in_time := some { hh := 10, mm := 1, pm := false }
    status := AttendanceStatus.check_in, is_late := true, minutes_late := 0
    confidence_score := 0, day_rate_applicable := true, deduction_amount := 0
    deduction_reason := some "Late by 0 minutes", eta_time := none
    approval_code := none }

/-! ## Theorems: algebraic properties of the payroll summarizer -/
theorem finalizeSummary_split (rules : PayrollRules) (s : PayrollSummary) :
    (finalizeSummary rules s).regular_hours + (finalizeSummary rules s).overtime_hours
      = (finalizeSummary rules s).total_hours := by
  simp only [finalizeSummary]
  have h : min s.total_hours (rules.standard_work_hours * 5) ≤ s.total_hours :=
    min_le_left _ _
  have h2 : max 0 (s.total_hours - min s.total_hours (rules.standard_work_hours * 5))
      = s.total_hours - min s.total_hours (rules.standard_work_hours * 5) :=
    max_eq_right (by linarith)
  rw [h2]
  ring

/-- C7: for every summary returned by `calculatePayrollSummary`, regular plus
overtime hours equal total hours (exactly, in the rational model), with
`regular_hours = min(total_hours, standard_work_hours * 5)` and
`overtime_hours = max(0, total_hours - regular_hours)`. -/
theorem regular_plus_overtime_eq_total (logs : List AttendanceLog)
    (employees : List Employee) (rules : PayrollRules) (s : PayrollSummary)
    (hs : s ∈ calculatePayrollSummary logs employees rules) :
    s.regular_hours + s.overtime_hours = s.total_hours
      ∧ s.regular_hours = min s.total_hours (rules.standard_work_hours * 5)
      ∧ s.overtime_hours = max 0 (s.total_hours - s.regular_hours) := by
  simp only [calculatePayrollSummary, List.mem_map] at hs
  obtain ⟨p, _, rfl⟩ := hs
  refine ⟨finalizeSummary_split rules p.2, ?_, ?_⟩ <;> simp [finalizeSummary]

/-- C8: for every summary returned by `calculatePayrollSummary`, net pay is
non-negative, regardless of how large the deductions are. -/
theorem net_pay_nonneg (logs : List AttendanceLog) (employees : List Employee)
    (rules : PayrollRules) (s : PayrollSummary)
    (hs : s ∈ calculatePayrollSummary logs employees rules) :
    0 ≤ s.net_pay := by
  simp only [calculatePayrollSummary, List.mem_map] at hs
  obtain ⟨p, _, rfl⟩ := hs
  simp only [finalizeSummary]
  exact le_max_left _ _

theorem wEmployee_summary_mem :
    ((calculatePayrollSummary [] [wEmployee] DEFAULT_PAYROLL_RULES).getD 0
        (zeroSummary wEmployee)) ∈ calculatePayrollSummary [] [wEmployee] DEFAULT_PAYROLL_RULES := by
  norm_num [calculatePayrollSummary, assocSet, zeroSummary, finalizeSummary, wEmployee]

/-- Witness for C7 at a concrete roster with no logs. -/
theorem regular_plus_overtime_eq_total_witness :
    ((calculatePayrollSummary [] [wEmployee] DEFAULT_PAYROLL_RULES).getD 0
        (zeroSummary wEmployee)).regular_hours
        + ((calculatePayrollSummary [] [wEmployee] DEFAULT_PAYROLL_RULES).getD 0
        (zeroSummary wEmployee)).overtime_hours
      = ((calculatePayrollSummary [] [wEmployee] DEFAULT_PAYROLL_RULES).getD 0
        (zeroSummary wEmployee)).total_hours :=
  (regular_plus_overtime_eq_total [] [wEmployee] DEFAULT_PAYROLL_RULES _ wEmployee_summary_mem).1

/-- Witness for C8 at a concrete roster with no logs. -/
theorem net_pay_nonneg_witness :
    0 ≤ ((calculatePayrollSummary [] [wEmployee] DEFAULT_PAYROLL_RULES).getD 0
        (zeroSummary wEmployee)).net_pay :=
  net_pay_nonneg [] [wEmployee] DEFAULT_PAYROLL_RULES _ wEmployee_summary_mem

/-! ## Theorems: unmatched messages are silently skipped (C10) -/
theorem lookupEmployee_eq_none (employees : List Employee) (u : String)
    (h : ∀ e ∈ employees, e.slack_user_id ≠ u) : lookupEmployee employees u = none := by
  apply List.find?_eq_none.mpr
  intro e he
  simp only [beq_iff_eq]
  exact h e (List.mem_reverse.mp he)

theorem parseStep_skip (employees : List Employee) (m : SlackMessage)
    (h : ∀ e ∈ employees, e.slack_user_id ≠ m.user) (acc : List (String × AttendanceLog)) :
    parseStep employees acc m = acc := by
  simp [parseStep, lookupEmployee_eq_none employees m.user h]

/-- C10: a message whose `user` matches no roster employee's `slack_user_id`
contributes nothing to `parseSlackMessages` — removing it from the message
list leaves the output unchanged (and the function returns only attendance
logs, so nothing records the skip). -/
theorem unmatched_user_message_ignored (pre post : List SlackMessage)
    (m : SlackMessage) (employees : List Employee)
    (h : ∀ e ∈ employees, e.slack_user_id ≠ m.user) :
    parseSlackMessages (pre ++ m :: post) employees
      = parseSlackMessages (pre ++ post) employees := by
  unfold parseSlackMessages
  rw [List.foldl_append, List.foldl_append, List.foldl_cons,
      parseStep_skip employees m h]

/-- Witness for C10: a concrete unknown-user message against a one-person roster. -/
theorem unmatched_user_message_ignored_witness :
    parseSlackMessages ([] ++ wStranger :: []) [wEmployee]
      = parseSlackMessages ([] ++ []) [wEmployee] :=
  unmatched_user_message_ignored [] [] wStranger [wEmployee] (by decide)

/-! ## Theorems: one summary per roster employee, zero rows (C6) -/
theorem assocSet_append (m : List (String × PayrollSummary)) (k : String)
    (v : PayrollSummary) (h : ∀ p ∈ m, p.1 ≠ k) : assocSet m k v = m ++ [(k, v)] := by
  unfold assocSet
  have hany : m.any (fun p => p.1 == k) = false := by
    rw [List.any_eq_false]
    intro p hp
    simp only [beq_iff_eq]
    exact h p hp
  rw [hany]
  simp

theorem initSummaries_eq (emps : List Employee) :
    ∀ (acc : List (String × PayrollSummary)),
    (∀ e ∈ emps, ∀ p ∈ acc, p.1 ≠ e.id) → (emps.map (fun e => e.id)).Nodup →
    emps.foldl (fun m e => assocSet m e.id (zeroSummary e)) acc
      = acc ++ emps.map (fun e => (e.id, zeroSummary e)) := by
  induction emps with
  | nil => intro acc _ _; simp
  | cons e es ih =>
    intro acc hacc hnd
    rw [List.foldl_cons, assocSet_append acc e.id (zeroSummary e)
          (fun p hp => hacc e (by simp) p hp)]
    rw [ih (acc ++ [(e.id, zeroSummary e)]) ?_ ?_]
    · simp
    · intro e2 he2 p hp
      rcases List.mem_append.mp hp with hp | hp
      · exact hacc e2 (by simp [he2]) p hp
      · simp only [List.mem_singleton] at hp
        subst hp
        simp only [List.map_cons, List.nodup_cons, List.mem_map] at hnd
        intro hcontra
        exact hnd.1 ⟨e2, he2, hcontra.symm⟩
    · exact (List.nodup_cons.mp (by simpa using hnd)).2

theorem applyLogToMap_map (rules : PayrollRules) (emps : List Employee)
    (f : Employee → PayrollSummary) (lg : AttendanceLog) :
    applyLogToMap rules (emps.map (fun e => (e.id, f e))) lg
      = emps.map (fun e =>
          (e.id, if e.id == lg.employee_id then applyLog rules (f e) lg else f e)) := by
  unfold applyLogToMap
  rw [List.map_map]
  apply List.map_congr_left
  intro e _
  by_cases h : e.id = lg.employee_id
  · simp [h]
  · simp [h]

theorem processLogs_map (rules : PayrollRules) (logs : List AttendanceLog) :
    ∀ (f : Employee → PayrollSummary) (emps : List Employee),
    logs.foldl (applyLogToMap rules) (emps.map (fun e => (e.id, f e)))
      = emps.map (fun e =>
          (e.id, logs.foldl
            (fun s lg => if e.id == lg.employee_id then applyLog rules s lg else s) (f e))) := by
  induction logs with
  | nil => intro f emps; simp
  | cons lg ls ih =>
    intro f emps
    rw [List.foldl_cons, applyLogToMap_map rules emps f lg,
        ih (fun e => if e.id == lg.employee_id then applyLog rules (f e) lg else f e) emps]
    simp only [List.foldl_cons]

theorem perEmployeeFold_employee (rules : PayrollRules) (eid : String)
    (logs : List AttendanceLog) (s : PayrollSummary) :
    (logs.foldl (fun s lg => if eid == lg.employee_id then applyLog rules s lg else s)
        s).employee = s.employee := by
  induction logs generalizing s with
  | nil => rfl
  | cons lg ls ih =>
    rw [List.foldl_cons]
    rw [ih]
    cases hb : (eid == lg.employee_id) <;> simp [hb, applyLog]

theorem perEmployeeFold_no_match (rules : PayrollRules) (eid : String)
    (logs : List AttendanceLog) (s : PayrollSummary)
    (h : ∀ lg ∈ logs, lg.employee_id ≠ eid) :
    logs.foldl (fun s lg => if eid == lg.employee_id then applyLog rules s lg else s) s
      = s := by
  induction logs with
  | nil => rfl
  | cons lg ls ih =>
    rw [List.foldl_cons, if_neg, ih (fun l hl => h l (by simp [hl]))]
    simp only [beq_iff_eq]
    exact fun hc => h lg (by simp) hc.symm

/-- C6 (amended): for a roster with pairwise-distinct employee ids (as the
data model requires) and rules with non-negative standard work hours,
`calculatePayrollSummary` returns exactly one summary per roster employee,
in roster order, and the summary of an employee with no attendance logs has
every numeric field equal to zero.  The function is total, so no error is
possible for zero-log employees. -/
theorem one_summary_per_employee (logs : List AttendanceLog) (emps : List Employee)
    (rules : PayrollRules) (hids : (emps.map (fun e => e.id)).Nodup)
    (hstd : 0 ≤ rules.standard_work_hours) :
    (calculatePayrollSummary logs emps rules).map (fun s => s.employee) = emps
    ∧ ∀ s ∈ calculatePayrollSummary logs emps rules,
        (∀ lg ∈ logs, lg.employee_id ≠ s.employee.id) →
        s.total_hours = 0 ∧ s.regular_hours = 0 ∧ s.overtime_hours = 0
        ∧ s.late_days = 0 ∧ s.offline_days = 0 ∧ s.late_deductions = 0
        ∧ s.offline_deductions = 0 ∧ s.gross_pay = 0 ∧ s.net_pay = 0 := by
  have hcalc : calculatePayrollSummary logs emps rules
      = emps.map (fun e => finalizeSummary rules
          (logs.foldl
            (fun s lg => if e.id == lg.employee_id then applyLog rules s lg else s)
            (zeroSummary e))) := by
    simp only [calculatePayrollSummary]
    rw [initSummaries_eq emps [] (by simp) hids]
    rw [List.nil_append, processLogs_map rules logs (fun e => zeroSummary e) emps,
        List.map_map]
    simp [Function.comp]
  constructor
  · rw [hcalc, List.map_map]
    have : ∀ e ∈ emps,
        ((fun s => s.employee) ∘ fun e => finalizeSummary rules
          (logs.foldl
            (fun s lg => if e.id == lg.employee_id then applyLog rules s lg else s)
            (zeroSummary e))) e = e := by
      intro e _
      simp only [Function.comp, finalizeSummary]
      exact perEmployeeFold_employee rules e.id logs (zeroSummary e)
    rw [List.map_congr_left this]
    simp
  · intro s hs hnolog
    rw [hcalc, List.mem_map] at hs
    obtain ⟨e, he, rfl⟩ := hs
    have hemp : (finalizeSummary rules
        (logs.foldl
          (fun s lg => if e.id == lg.employee_id then applyLog rules s lg else s)
          (zeroSummary e))).employee = e := by
      simp only [finalizeSummary]
      exact perEmployeeFold_employee rules e.id logs (zeroSummary e)
    rw [hemp] at hnolog
    rw [perEmployeeFold_no_match rules e.id logs (zeroSummary e) hnolog]
    have h5 : (0:ℚ) ≤ rules.standard_work_hours * 5 := by positivity
    simp [finalizeSummary, zeroSummary, min_eq_left h5, max_self]

/-- Witness for C6 at a concrete one-person roster with no logs. -/
theorem one_summary_per_employee_witness :
    (calculatePayrollSummary [] [wEmployee] DEFAULT_PAYROLL_RULES).map
        (fun s => s.employee) = [wEmployee]
    ∧ ∀ s ∈ calculatePayrollSummary [] [wEmployee] DEFAULT_PAYROLL_RULES,
        (∀ lg ∈ ([] : List AttendanceLog), lg.employee_id ≠ s.employee.id) →
        s.total_hours = 0 ∧ s.regular_hours = 0 ∧ s.overtime_hours = 0
        ∧ s.late_days = 0 ∧ s.offline_days = 0 ∧ s.late_deductions = 0
        ∧ s.offline_deductions = 0 ∧ s.gross_pay = 0 ∧ s.net_pay = 0 :=
  one_summary_per_employee [] [wEmployee] DEFAULT_PAYROLL_RULES (by decide)
    (by norm_num [DEFAULT_PAYROLL_RULES])

/-- Counterexample for C6 as stated: with a roster whose two entries share an
id, the `Map` keyed by id keeps one row, so there is not one summary per
roster employee; and with a rules object whose `standard_work_hours` is
negative, a zero-log employee's `regular_hours` is `min(0, -5) = -5 ≠ 0`. -/
theorem one_summary_per_employee_counterexample :
    (calculatePayrollSummary [] [wEmployee, c6dupEmployee] c6rules).length ≠ 2
    ∧ ((calculatePayrollSummary [] [wEmployee, c6dupEmployee] c6rules).getD 0
        (zeroSummary wEmployee)).regular_hours ≠ 0 := by
  constructor
  · norm_num [calculatePayrollSummary, assocSet, zeroSummary, wEmployee, c6dupEmployee]
  · norm_num [calculatePayrollSummary, assocSet, zeroSummary, finalizeSummary,
      wEmployee, c6dupEmployee, c6rules]

theorem inc_in_in : jsIncludes [':','i','n',':'] [':','i','n',':'] = true := by decide

theorem inc_out_in : jsIncludes [':','o','u','t',':'] [':','i','n',':'] = false := by decide

theorem inc_out_out : jsIncludes [':','o','u','t',':'] [':','o','u','t',':'] = true := by decide

theorem c1_fold : c1msgs.foldl (parseStep [c1john, c1jane]) []
    = [ ("1-2024-01-01",
         { employee_id := "1", date := "2024-01-01", check_in := some 32400000
           check_out := some 61200000, is_late := false, is_offline := false
           hours_worked := 0 })
      , ("2-2024-01-01",
         { employee_id := "2", date := "2024-01-01", check_in := some 36000000
           check_out := some 68400000, is_late := false, is_offline := false
           hours_worked := 0 }) ] := by
  simp [parseStep, lookupEmployee, assocUpd, initLog, c1msgs, c1john, c1jane,
    List.find?, inc_in_in, inc_out_in, inc_out_out]
  norm_num

theorem c1_log_john : finalizeLog
    { employee_id := "1", date := "2024-01-01", check_in := some 32400000
      check_out := some 61200000, is_late := false, is_offline := false
      hours_worked := 0 }
    = { employee_id := "1", date := "2024-01-01", check_in := some 32400000
        check_out := some 61200000, is_late := false, is_offline := false
        hours_worked := 8 } := by
  simp only [finalizeLog]
  rw [if_neg (by norm_num [dayStart9, DEFAULT_PAYROLL_RULES])]
  norm_num [AttendanceLog.mk.injEq]

theorem c1_log_jane : finalizeLog
    { employee_id := "2", date := "2024-01-01", check_in := some 36000000
      check_out := some 68400000, is_late := false, is_offline := false
      hours_worked := 0 }
    = { employee_id := "2", date := "2024-01-01", check_in := some 36000000
        check_out := some 68400000, is_late := true, is_offline := false
        hours_worked := 9 } := by
  simp only [finalizeLog]
  rw [if_pos (by norm_num [dayStart9, DEFAULT_PAYROLL_RULES])]
  norm_num [AttendanceLog.mk.injEq]

theorem c1_logs : parseSlackMessages c1msgs [c1john, c1jane]
    = [ { employee_id := "1", date := "2024-01-01", check_in := some 32400000
          check_out := some 61200000, is_late := false, is_offline := false
          hours_worked := 8 }
      , { employee_id := "2", date := "2024-01-01", check_in := some 36000000
          check_out := some 68400000, is_late := true, is_offline := false
          hours_worked := 9 } ] := by
  unfold parseSlackMessages
  rw [c1_fold]
  simp [c1_log_john, c1_log_jane]

theorem c1_summaries : calculatePayrollSummary
    (parseSlackMessages c1msgs [c1john, c1jane]) [c1john, c1jane] DEFAULT_PAYROLL_RULES
    = [ { employee := c1john, total_hours := 8, regular_hours := 8
          overtime_hours := 0, late_days := 0, offline_days := 0
          late_deductions := 0, offline_deductions := 0
          gross_pay := 200, net_pay := 200 }
      , { employee := c1jane, total_hours := 9, regular_hours := 9
          overtime_hours := 0, late_days := 1, offline_days := 0
          late_deductions := 10, offline_deductions := 0
          gross_pay := 270, net_pay := 260 } ] := by
  rw [c1_logs]
  simp [calculatePayrollSummary, assocSet, applyLogToMap, applyLog, zeroSummary,
    finalizeSummary, DEFAULT_PAYROLL_RULES, c1john, c1jane,
    PayrollSummary.mk.injEq]
  norm_num

/-- C1 counterexample: running the John/Jane scenario through the code does
not produce the claimed figures — Jane's 9 hours fall under the
`standard_work_hours * 5 = 40` weekly cap, so she gets 9 regular hours and no
overtime (gross 270, net 260), not 8 regular + 1 overtime (gross 285, net 275). -/
theorem c1_round_trip_counterexample :
    calculatePayrollSummary (parseSlackMessages c1msgs [c1john, c1jane])
        [c1john, c1jane] DEFAULT_PAYROLL_RULES
      ≠ [ { employee := c1john, total_hours := 8, regular_hours := 8
            overtime_hours := 0, late_days := 0, offline_days := 0
            late_deductions := 0, offline_deductions := 0
            gross_pay := 200, net_pay := 200 }
        , { employee := c1jane, total_hours := 9, regular_hours := 8
            overtime_hours := 1, late_days := 1, offline_days := 0
            late_deductions := 10, offline_deductions := 0
            gross_pay := 285, net_pay := 275 } ] := by
  intro h
  rw [c1_summaries] at h
  norm_num [PayrollSummary.mk.injEq] at h

/-- C1 (amended): the scenario yields John — 8h total, 8h regular, 0 OT, not
late, gross 200, net 200 — as claimed, and Jane — 9h total, 9h regular
(below the weekly cap of 40), 0 overtime, late with a 10-dollar deduction,
gross 270, net 260. -/
theorem c1_round_trip_amended : calculatePayrollSummary
    (parseSlackMessages c1msgs [c1john, c1jane]) [c1john, c1jane] DEFAULT_PAYROLL_RULES
    = [ { employee := c1john, total_hours := 8, regular_hours := 8
          overtime_hours := 0, late_days := 0, offline_days := 0
          late_deductions := 0, offline_deductions := 0
          gross_pay := 200, net_pay := 200 }
      , { employee := c1jane, total_hours := 9, regular_hours := 9
          overtime_hours := 0, late_days := 1, offline_days := 0
          late_deductions := 10, offline_deductions := 0
          gross_pay := 270, net_pay := 260 } ] := c1_summaries

theorem lev_nil (ys : List Char) : calculateLevenshteinDistance [] ys = ys.length := rfl

theorem lev_cons_nil (x : Char) (xs : List Char) :
    calculateLevenshteinDistance (x :: xs) [] = calculateLevenshteinDistance xs [] + 1 := rfl

theorem lev_cons_cons (x y : Char) (xs ys : List Char) :
    calculateLevenshteinDistance (x :: xs) (y :: ys)
      = min (min (calculateLevenshteinDistance xs (y :: ys) + 1)
                 (calculateLevenshteinDistance (x :: xs) ys + 1))
            (calculateLevenshteinDistance xs ys + if x = y then 0 else 1) := rfl

theorem lev_eq_zero {a b : List Char}
    (h : calculateLevenshteinDistance a b = 0) : a = b := by
  induction a generalizing b with
  | nil =>
    rw [lev_nil] at h
    rw [List.length_eq_zero.mp h]
  | cons x xs ih =>
    cases b with
    | nil => rw [lev_cons_nil] at h; omega
    | cons y ys =>
      rw [lev_cons_cons] at h
      rcases Nat.min_eq_zero_iff.mp h with h1 | h2
      · rcases Nat.min_eq_zero_iff.mp h1 with h3 | h4 <;> omega
      · have hx : x = y := by
          by_contra hne
          simp [hne] at h2
        have hlev : calculateLevenshteinDistance xs ys = 0 := by
          rw [if_pos hx] at h2
          omega
        rw [hx, ih hlev]

theorem find_some_of_mem {α : Type} (p : α → Bool) (l : List α) (a : α)
    (ha : a ∈ l) (hp : p a = true) : ∃ b, l.find? p = some b ∧ p b = true := by
  induction l with
  | nil => cases ha
  | cons x xs ih =>
    cases hx : p x with
    | true => exact ⟨x, List.find?_cons_of_pos _ hx, hx⟩
    | false =>
      rcases List.mem_cons.mp ha with rfl | ha2
      · rw [hp] at hx; cases hx
      · obtain ⟨b, hb1, hb2⟩ := ih ha2
        refine ⟨b, ?_, hb2⟩
        rw [List.find?_cons_of_neg _ (by simp [hx]), hb1]

/-- C2 (amended): an empty raw name fails to match only against the empty
roster.  Against any non-empty roster the fuzzy pass matches (the cleaned
empty name is a substring of every cleaned roster name, as JS
`includes('')` is always true), so `matchEmployeeName('')` returns an
employee. -/
theorem empty_name_match_iff (employees : List Employee) :
    matchEmployeeName [] employees = none ↔ employees = [] := by
  constructor
  · intro h
    cases employees with
    | nil => rfl
    | cons e es =>
      exfalso
      unfold matchEmployeeName at h
      cases hfind : (e :: es).find? (fun emp => lowerL emp.name == lowerL []) with
      | some x => rw [hfind] at h; cases h
      | none =>
        rw [hfind] at h
        apply List.find?_eq_none.mp h e (List.mem_cons_self e es)
        show (jsIncludes (cleanName (lowerL e.name)) (cleanName (lowerL []))
            || jsIncludes (cleanName (lowerL [])) (cleanName (lowerL e.name))
            || decide (calculateLevenshteinDistance (cleanName (lowerL e.name))
                (cleanName (lowerL [])) ≤ 2)) = true
        have hempty : cleanName (lowerL ([] : List Char)) = [] := by decide
        simp only [hempty, jsIncludes, Bool.or_eq_true, decide_eq_true_eq]
        exact Or.inl (Or.inl List.nil_infix)
  · intro h
    subst h
    rfl

/-- C2 counterexample: against the non-empty roster `[Bob]`, the empty raw
name matches Bob (it is not rejected), because the cleaned empty string is
a substring of every name. -/
theorem empty_name_match_counterexample :
    matchEmployeeName [] [wBob] = some wBob := by decide

theorem score_eq_one_iff (raw nm : List Char) :
    calculateNameMatchScore raw nm = 1 ↔ lowerL raw = lowerL nm := by
  simp only [calculateNameMatchScore]
  by_cases h : lowerL raw = lowerL nm
  · simp [h]
  · rw [if_neg h]
    constructor
    · intro hmax
      exfalso
      set d := calculateLevenshteinDistance (lowerL raw) (lowerL nm) with hdd
      set L := max (lowerL raw).length (lowerL nm).length with hLL
      have hd : 1 ≤ d := Nat.one_le_iff_ne_zero.mpr (fun h0 => h (lev_eq_zero h0))
      have hm : 1 ≤ L := by
        rcases Nat.eq_zero_or_pos L with h0 | h0
        · exfalso
          rcases Nat.max_eq_zero_iff.mp (hLL ▸ h0) with ⟨h1, h2⟩
          exact h (by rw [List.length_eq_zero.mp h1, List.length_eq_zero.mp h2])
        · exact h0
      have hpos : (0:ℚ) < (d : ℚ) / (L : ℚ) :=
        div_pos (by exact_mod_cast hd) (by exact_mod_cast hm)
      rcases max_choice (0:ℚ) (1 - (d : ℚ) / (L : ℚ)) with hc | hc <;>
        rw [hc] at hmax <;> linarith
    · intro hh
      exact absurd hh h

/-- C3 (amended): (a) a raw name case-insensitively equal to some roster
name always matches, and the matched employee's name-match score is 1;
(b) the score is 1 exactly on case-insensitive equality; (c) a raw name
whose suffix-stripped (cleaned) lowercase form has edit distance greater
than 2 from, and no substring relationship with, every roster employee's
cleaned lowercase name yields no match.  (As stated over the raw,
uncleaned names, part (c) is refuted by the counterexample below.) -/
theorem name_matcher_props (rawName : List Char) (employees : List Employee) :
    ((∃ e ∈ employees, lowerL e.name = lowerL rawName) →
      ∃ e₂, matchEmployeeName rawName employees = some e₂
        ∧ lowerL e₂.name = lowerL rawName
        ∧ calculateNameMatchScore rawName e₂.name = 1)
    ∧ (∀ nm : List Char, calculateNameMatchScore rawName nm = 1 ↔ lowerL rawName = lowerL nm)
    ∧ ((∀ e ∈ employees,
          ¬ (cleanName (lowerL rawName) <:+: cleanName (lowerL e.name))
          ∧ ¬ (cleanName (lowerL e.name) <:+: cleanName (lowerL rawName))
          ∧ 2 < calculateLevenshteinDistance (cleanName (lowerL e.name))
              (cleanName (lowerL rawName))) →
        matchEmployeeName rawName employees = none) := by
  refine ⟨?_, fun nm => score_eq_one_iff rawName nm, ?_⟩
  · rintro ⟨e, he, heq⟩
    obtain ⟨b, hb, hpb⟩ := find_some_of_mem
      (fun emp => lowerL emp.name == lowerL rawName) employees e he (by simp [heq])
    refine ⟨b, ?_, ?_, ?_⟩
    · unfold matchEmployeeName
      rw [hb]
    · simpa using hpb
    · exact (score_eq_one_iff rawName b.name).mpr
        ((by simpa using hpb : lowerL b.name = lowerL rawName)).symm
  · intro hyp
    have hex : employees.find? (fun emp => lowerL emp.name == lowerL rawName) = none := by
      apply List.find?_eq_none.mpr
      intro e he
      simp only [beq_iff_eq]
      intro heq
      obtain ⟨h1, _, _⟩ := hyp e he
      apply h1
      rw [← heq]
    unfold matchEmployeeName
    rw [hex]
    apply List.find?_eq_none.mpr
    intro e he
    obtain ⟨h1, h2, h3⟩ := hyp e he
    show ¬ (jsIncludes (cleanName (lowerL e.name)) (cleanName (lowerL rawName))
        || jsIncludes (cleanName (lowerL rawName)) (cleanName (lowerL e.name))
        || decide (calculateLevenshteinDistance (cleanName (lowerL e.name))
            (cleanName (lowerL rawName)) ≤ 2)) = true
    simp only [jsIncludes, Bool.or_eq_true, decide_eq_true_eq, not_or]
    exact ⟨⟨h1, h2⟩, by omega⟩

/-- C3 counterexample: the raw name "x jr" has edit distance 3 (> 2) from
the roster name "x iii" and neither contains the other, yet the matcher
returns a match — suffix stripping reduces both names to "x", and the
fuzzy substring test fires. -/
theorem name_matcher_counterexample :
    2 < calculateLevenshteinDistance (lowerL "x iii".toList) (lowerL "x jr".toList)
    ∧ ¬ (lowerL "x jr".toList <:+: lowerL "x iii".toList)
    ∧ ¬ (lowerL "x iii".toList <:+: lowerL "x jr".toList)
    ∧ matchEmployeeName "x jr".toList [c3emp] = some c3emp := by decide

/-- Witness for C3 at concrete inputs: an exact match for "bob" against
roster [Bob], and a rejection for "zzzz" against the same roster. -/
theorem name_matcher_props_witness :
    (∃ e₂, matchEmployeeName "bob".toList [wBob] = some e₂
      ∧ lowerL e₂.name = lowerL "bob".toList
      ∧ calculateNameMatchScore "bob".toList e₂.name = 1)
    ∧ matchEmployeeName "zzzz".toList [wBob] = none :=
  ⟨(name_matcher_props "bob".toList [wBob]).1 ⟨wBob, by decide, by decide⟩,
   (name_matcher_props "zzzz".toList [wBob]).2.2 (by decide)⟩

/-- C4: in the free-text lateness calculator (for a status that is not an
approved absence or work-from-home, which short-circuit), a check-in whose
clock value equals the effective start time plus the effective grace period
is not late with 0 minutes late, and a check-in one minute after that is
late by exactly 1 minute: the boundary is exclusive on the late side. -/
theorem lateness_boundary (cin : TimeTok) (emp : Option Employee)
    (status : AttendanceStatus) (st : AttendanceSettings)
    (hstat : ¬(status = AttendanceStatus.approved_out
      ∨ status = AttendanceStatus.work_from_home)) :
    ((parseTimeMin cin : ℚ)
        = (parseTimeMin (effStartTok emp st) : ℚ) + effGraceQ emp st →
      calculateLateness (some cin) emp status st = (false, 0))
    ∧ ((parseTimeMin cin : ℚ)
        = (parseTimeMin (effStartTok emp st) : ℚ) + effGraceQ emp st + 1 →
      calculateLateness (some cin) emp status st = (true, 1)) := by
  constructor
  · intro h
    have hdiff : (((parseTimeMin cin : ℤ)
        - (parseTimeMin (effStartTok emp st) : ℤ) : ℤ) : ℚ) - effGraceQ emp st = 0 := by
      push_cast
      linarith
    simp only [calculateLateness, if_neg hstat, hdiff]
    norm_num [mathRound]
  · intro h
    have hdiff : (((parseTimeMin cin : ℤ)
        - (parseTimeMin (effStartTok emp st) : ℤ) : ℤ) : ℚ) - effGraceQ emp st = 1 := by
      push_cast
      linarith
    simp only [calculateLateness, if_neg hstat, hdiff]
    norm_num [mathRound]

/-- Witness for C4 with the default settings (10:00 AM start, 5 minutes
grace): 10:05 AM is on time, 10:06 AM is late by one minute. -/
theorem lateness_boundary_witness :
    calculateLateness (some { hh := 10, mm := 5, pm := false }) none
        AttendanceStatus.check_in defaultSettings = (false, 0)
    ∧ calculateLateness (some { hh := 10, mm := 6, pm := false }) none
        AttendanceStatus.check_in defaultSettings = (true, 1) :=
  ⟨(lateness_boundary { hh := 10, mm := 5, pm := false } none
      AttendanceStatus.check_in defaultSettings (by decide)).1
      (by norm_num [parseTimeMin, effStartTok, effGraceQ, defaultSettings]),
   (lateness_boundary { hh := 10, mm := 6, pm := false } none
      AttendanceStatus.check_in defaultSettings (by decide)).2
      (by norm_num [parseTimeMin, effStartTok, effGraceQ, defaultSettings])⟩

theorem mathRound_intCast (k : ℤ) : mathRound ((k : ℤ) : ℚ) = k := by
  unfold mathRound
  rw [add_comm, Int.floor_add_int]
  norm_num

theorem lateness_int_grace (cin : Option TimeTok) (emp : Option Employee)
    (status : AttendanceStatus) (st : AttendanceSettings)
    (hg : ∃ n : ℤ, effGraceQ emp st = (n : ℚ)) :
    0 ≤ (calculateLateness cin emp status st).2
    ∧ ((calculateLateness cin emp status st).1 = true
        ↔ 0 < (calculateLateness cin emp status st).2) := by
  cases cin with
  | none => simp [calculateLateness]
  | some c =>
    by_cases hs : status = AttendanceStatus.approved_out
        ∨ status = AttendanceStatus.work_from_home
    · simp [calculateLateness, hs]
    · obtain ⟨n, hn⟩ := hg
      have hcast : max (0:ℚ)
          ((((parseTimeMin c : ℤ) - (parseTimeMin (effStartTok emp st) : ℤ) : ℤ) : ℚ)
            - effGraceQ emp st)
          = ((max 0 ((parseTimeMin c : ℤ) - (parseTimeMin (effStartTok emp st) : ℤ) - n)
              : ℤ) : ℚ) := by
        rw [hn]
        push_cast
        rfl
      simp only [calculateLateness, if_neg hs, hcast, mathRound_intCast]
      constructor
      · exact le_max_left 0 _
      · constructor
        · intro hif
          by_cases h0 : (0:ℚ)
              < ((max 0 ((parseTimeMin c : ℤ) - (parseTimeMin (effStartTok emp st) : ℤ) - n)
                : ℤ) : ℚ)
          · exact_mod_cast h0
          · rw [if_neg h0] at hif
            cases hif
        · intro hk
          rw [if_pos (by exact_mod_cast hk)]

theorem matchEmployeeName_mem (raw : List Char) (employees : List Employee)
    (e : Employee) (h : matchEmployeeName raw employees = some e) : e ∈ employees := by
  unfold matchEmployeeName at h
  cases hf : employees.find? (fun emp => lowerL emp.name == lowerL raw) with
  | some x =>
    rw [hf] at h
    cases h
    exact List.mem_of_find?_eq_some hf
  | none =>
    rw [hf] at h
    exact List.mem_of_find?_eq_some h

theorem parseEmployeeSection_fields (sec : List Char) (employees : List Employee)
    (st : AttendanceSettings) (en : ParsedAttendanceEntry)
    (h : parseEmployeeSection sec employees st = some en) :
    ∃ emp : Option Employee,
      (emp = none ∨ ∃ e ∈ employees, emp = some e)
      ∧ en.status = determineAttendanceStatus sec
      ∧ en.day_rate_applicable = isDayRateApplicable (determineAttendanceStatus sec)
      ∧ en.is_late
          = (calculateLateness (findTimeTok sec) emp (determineAttendanceStatus sec) st).1
      ∧ en.minutes_late
          = (calculateLateness (findTimeTok sec) emp (determineAttendanceStatus sec) st).2 := by
  unfold parseEmployeeSection at h
  split at h
  · cases h
  · dsimp only [] at h
    split at h
    · cases h
    · rename_i l0 ls hlines
      rw [Option.some_inj] at h
      subst h
      refine ⟨matchEmployeeName (nameExtract l0) employees, ?_, rfl, rfl, rfl, rfl⟩
      cases hm : matchEmployeeName (nameExtract l0) employees with
      | none => exact Or.inl rfl
      | some e =>
        exact Or.inr ⟨e, matchEmployeeName_mem _ _ _ hm, rfl⟩

theorem effGraceQ_int (emp : Option Employee) (st : AttendanceSettings)
    (employees : List Employee)
    (hmem : emp = none ∨ ∃ e ∈ employees, emp = some e)
    (hg1 : ∃ n : ℤ, st.grace_period_minutes = (n : ℚ))
    (hg2 : ∀ e ∈ employees, ∀ g, e.grace_period_minutes = some g → ∃ n : ℤ, g = (n : ℚ)) :
    ∃ n : ℤ, effGraceQ emp st = (n : ℚ) := by
  rcases hmem with rfl | ⟨e, he, rfl⟩
  · exact hg1
  · have h1 : effGraceQ (some e) st
        = (match e.grace_period_minutes with
           | some g => if g = 0 then st.grace_period_minutes else g
           | none => st.grace_period_minutes) := rfl
    cases hge : e.grace_period_minutes with
    | none => rw [h1, hge]; exact hg1
    | some g =>
      rw [h1, hge]
      show ∃ n : ℤ, (if g = 0 then st.grace_period_minutes else g) = (n : ℚ)
      by_cases hz : g = 0
      · rw [if_pos hz]
        exact hg1
      · rw [if_neg hz]
        exact hg2 e he g hge

/-- C5 (amended): every entry produced by `parseSlackText` has a
non-negative (integer-valued) `minutes_late`, and — provided the settings'
grace period and every roster employee's grace-period override are whole
numbers of minutes, as with the defaults — `is_late` holds exactly when
`minutes_late > 0`.  (With a fractional grace period the equivalence fails:
see the counterexample, where a check-in is flagged late while the rounded
`minutes_late` is 0.) -/
theorem parse_late_iff_minutes (text : String) (employees : List Employee)
    (settings : PartialSettings) (todayStr : String)
    (hg1 : ∃ n : ℤ, (mergeSettings settings).grace_period_minutes = (n : ℚ))
    (hg2 : ∀ e ∈ employees, ∀ g, e.grace_period_minutes = some g → ∃ n : ℤ, g = (n : ℚ)) :
    ∀ en ∈ (parseSlackText text employees settings todayStr).entries,
      0 ≤ en.minutes_late ∧ (en.is_late = true ↔ 0 < en.minutes_late) := by
  intro en hen
  simp only [parseSlackText, List.mem_filterMap] at hen
  obtain ⟨sec, _, hsec⟩ := hen
  obtain ⟨emp, hmem, _, _, hlate, hmin⟩ :=
    parseEmployeeSection_fields sec employees (mergeSettings settings) en hsec
  rw [hlate, hmin]
  exact lateness_int_grace (findTimeTok sec) emp (determineAttendanceStatus sec)
    (mergeSettings settings)
    (effGraceQ_int emp (mergeSettings settings) employees hmem hg1 hg2)

/-- C9: the status classifier returns only check_in, approved_out,
work_from_home, eta_delayed or unknown — never no_show — so every entry
produced by `parseSlackText` has a status other than no_show (making the
100%-deduction no-show branch of `calculateDeductions` unreachable from the
parse) and `day_rate_applicable = true`. -/
theorem no_show_unreachable :
    (∀ sec : List Char, determineAttendanceStatus sec ≠ AttendanceStatus.no_show)
    ∧ ∀ (text : String) (employees : List Employee) (settings : PartialSettings)
        (todayStr : String),
      ∀ en ∈ (parseSlackText text employees settings todayStr).entries,
        en.status ≠ AttendanceStatus.no_show ∧ en.day_rate_applicable = true := by
  have hs : ∀ sec : List Char, determineAttendanceStatus sec ≠ AttendanceStatus.no_show := by
    intro sec
    unfold determineAttendanceStatus
    split_ifs <;> decide
  refine ⟨hs, ?_⟩
  intro text employees settings todayStr en hen
  simp only [parseSlackText, List.mem_filterMap] at hen
  obtain ⟨sec, _, hsec⟩ := hen
  obtain ⟨emp, _, hstatus, hday, _, _⟩ :=
    parseEmployeeSection_fields sec employees (mergeSettings settings) en hsec
  constructor
  · rw [hstatus]
    exact hs sec
  · rw [hday]
    unfold isDayRateApplicable
    exact decide_eq_true (hs sec)

theorem w5_lateness : calculateLateness (some { hh := 10, mm := 6, pm := false }) none
    AttendanceStatus.check_in (mergeSettings noSettings) = (true, 1) := by
  simp only [calculateLateness, if_neg (by decide :
    ¬(AttendanceStatus.check_in = AttendanceStatus.approved_out
      ∨ AttendanceStatus.check_in = AttendanceStatus.work_from_home))]
  norm_num [parseTimeMin, effStartTok, effGraceQ, mergeSettings, defaultSettings,
    noSettings, mathRound]

theorem w5_section : parseEmployeeSection w5text.toList [] (mergeSettings noSettings)
    = some w5entryE := by
  unfold parseEmployeeSection
  rw [if_neg (by decide)]
  dsimp only []
  rw [show ((w5text.toList.splitOn '\n').map trimL).filter (fun l => !l.isEmpty)
      = [w5text.toList] from by decide]
  dsimp only []
  rw [show nameExtract w5text.toList = "john".toList from by decide,
      show findTimeTok w5text.toList = some { hh := 10, mm := 6, pm := false } from by decide,
      show determineAttendanceStatus w5text.toList = AttendanceStatus.check_in from by decide,
      show etaScan w5text.toList = none from by decide,
      show extractApprovalCode w5text.toList = none from by decide,
      show matchEmployeeName "john".toList [] = none from rfl,
      w5_lateness]
  rw [Option.some_inj]
  norm_num [calculateDeductions, mergeSettings, noSettings, defaultSettings, w5entryE,
    ParsedAttendanceEntry.mk.injEq]
  decide

theorem w5_entries : (parseSlackText w5text [] noSettings "2025-01-01").entries
    = [w5entryE] := by
  simp only [parseSlackText]
  rw [show splitIntoEmployeeSections w5text.toList = [w5text.toList] from by decide]
  simp only [List.filterMap_cons, List.filterMap_nil, w5_section]

/-- Witness for C5 at the default settings and the entry parsed from
"john [10:06 AM] IN". -/
theorem parse_late_iff_minutes_witness :
    0 ≤ w5entryE.minutes_late ∧ (w5entryE.is_late = true ↔ 0 < w5entryE.minutes_late) :=
  parse_late_iff_minutes w5text [] noSettings "2025-01-01"
    ⟨5, by norm_num [mergeSettings, noSettings, defaultSettings]⟩
    (by intro e he; cases he)
    w5entryE (by rw [w5_entries]; exact List.mem_singleton.mpr rfl)

/-- Witness for C9 at the same concrete parse. -/
theorem no_show_unreachable_witness :
    w5entryE.status ≠ AttendanceStatus.no_show ∧ w5entryE.day_rate_applicable = true :=
  no_show_unreachable.2 w5text [] noSettings "2025-01-01"
    w5entryE (by rw [w5_entries]; exact List.mem_singleton.mpr rfl)

theorem ce5_lateness : calculateLateness (some { hh := 10, mm := 1, pm := false }) none
    AttendanceStatus.check_in (mergeSettings ce5settings) = (true, 0) := by
  simp only [calculateLateness, if_neg (by decide :
    ¬(AttendanceStatus.check_in = AttendanceStatus.approved_out
      ∨ AttendanceStatus.check_in = AttendanceStatus.work_from_home))]
  norm_num [parseTimeMin, effStartTok, effGraceQ, mergeSettings, defaultSettings,
    ce5settings, mathRound]

theorem ce5_section : parseEmployeeSection ce5text.toList [] (mergeSettings ce5settings)
    = some ce5entryE := by
  unfold parseEmployeeSection
  rw [if_neg (by decide)]
  dsimp only []
  rw [show ((ce5text.toList.splitOn '\n').map trimL).filter (fun l => !l.isEmpty)
      = [ce5text.toList] from by decide]
  dsimp only []
  rw [show nameExtract ce5text.toList = "john".toList from by decide,
      show findTimeTok ce5text.toList = some { hh := 10, mm := 1, pm := false } from by decide,
      show determineAttendanceStatus ce5text.toList = AttendanceStatus.check_in from by decide,
      show etaScan ce5text.toList = none from by decide,
      show extractApprovalCode ce5text.toList = none from by decide,
      show matchEmployeeName "john".toList [] = none from rfl,
      ce5_lateness]
  rw [Option.some_inj]
  norm_num [calculateDeductions, mergeSettings, ce5settings, defaultSettings, ce5entryE,
    ParsedAttendanceEntry.mk.injEq]
  decide

theorem ce5_entries : (parseSlackText ce5text [] ce5settings "2025-01-01").entries
    = [ce5entryE] := by
  simp only [parseSlackText]
  rw [show splitIntoEmployeeSections ce5text.toList = [ce5text.toList] from by decide]
  simp only [List.filterMap_cons, List.filterMap_nil, ce5_section]

/-- C5 counterexample: with a fractional grace period of 0.6 minutes in the
settings, the parse of "john [10:01 AM] IN" yields an entry that is flagged
late while its rounded `minutes_late` is 0 — refuting the claimed
equivalence over arbitrary settings. -/
theorem parse_late_iff_minutes_counterexample :
    ∃ en ∈ (parseSlackText ce5text [] ce5settings "2025-01-01").entries,
      en.is_late = true ∧ en.minutes_late = 0 := by
  refine ⟨ce5entryE, ?_, rfl, rfl⟩
  rw [ce5_entries]
  exact List.mem_singleton.mpr rfl
